import Mathlib

/-
Verification of the dial-value recovery subsystem of PoserDialValue.py
(PoserLib).  The Python module is shallowly embedded: the mutable host
state visible to the module (the parameter's live value-operation list and
the scene's current frame) is threaded explicitly through each function,
and host primitives (DeleteValueOperation, AddValueOperation, SetDelta,
InsertKey, Value, ValueFrame, UnaffectedValue, SetFrame) are modelled
directly.  Python exceptions are modelled by the outcome `exn`; the
documented irrecoverable host crash triggered by deleting a value
operation whose source parameter is absent is modelled by the outcome
`crash`, which no `try/except` can intercept.  Numeric values are
modelled by rationals.  The `debug`-gated print diagnostics of the
module, which do not change any modelled state, are omitted.
-/

set_option maxRecDepth 4000

namespace PoserDialValue

/-- Value-operation type codes of the host (poser.kValueOpTypeCode...). -/
inductive ValOpType where
  | deltaAdd
  | divideBy
  | divideInto
  | keyOp
  | minusOp
  | plusOp
  | pythonCallBack
  | timesOp
deriving Repr, DecidableEq

/-- A value operation attached to a parameter, carrying its type-specific
configuration: the additive delta scalar for delta-add operations, the
ordered (key, value) control points for keyed operations, and its source
parameter reference (`none` models `SourceParameter()` returning `None`,
the corrupted forward-reference case documented in the module header).
Source parameters are identified by a numeric id into the host scene. -/
inductive ValOp where
  | deltaAdd (source : Option Nat) (delta : ℚ)
  | keyOp (source : Option Nat) (keys : List (ℚ × ℚ))
  | divideBy (source : Option Nat)
  | divideInto (source : Option Nat)
  | minusOp (source : Option Nat)
  | plusOp (source : Option Nat)
  | timesOp (source : Option Nat)
  | pythonCallBack
deriving Repr, DecidableEq

/-- theValOp.Type() : the host type code of a value operation. -/
def ValOp.typeCode : ValOp → ValOpType
  | .deltaAdd _ _ => .deltaAdd
  | .keyOp _ _ => .keyOp
  | .divideBy _ => .divideBy
  | .divideInto _ => .divideInto
  | .minusOp _ => .minusOp
  | .plusOp _ => .plusOp
  | .timesOp _ => .timesOp
  | .pythonCallBack => .pythonCallBack

/-- theValOp.SourceParameter() : `none` models a `None` result (either a
corrupted operation or a python callback, which has no source). -/
def ValOp.sourceParameter : ValOp → Option Nat
  | .deltaAdd s _ => s
  | .keyOp s _ => s
  | .divideBy s => s
  | .divideInto s => s
  | .minusOp s => s
  | .plusOp s => s
  | .timesOp s => s
  | .pythonCallBack => none

/-- theValOp.Delta() : the delta scalar of a delta-add operation. -/
def ValOp.deltaOf : ValOp → ℚ
  | .deltaAdd _ d => d
  | _ => 0

/-- theValOp.NumKeys() : the number of control points of a keyed operation. -/
def ValOp.numKeys : ValOp → Nat
  | .keyOp _ ks => ks.length
  | _ => 0

/-- theValOp.GetKey(i) : the i-th (zero-based) control point of a keyed
operation. -/
def ValOp.getKey (op : ValOp) (i : Nat) : ℚ × ℚ :=
  match op with
  | .keyOp _ ks => ks.getD i (0, 0)
  | _ => (0, 0)

/-- A non-callback operation whose source parameter is absent: deleting it
makes the host crash irrecoverably (module history v1.5). -/
def ValOp.corrupted (op : ValOp) : Bool :=
  op.typeCode ≠ ValOpType.pythonCallBack ∧ op.sourceParameter = none

/-- The mutable host state visible to the module: the parameter's live
value-operation list, the scene's current frame, and counters of the
mutating host primitives invoked (deletions and additions of value
operations), used to state that a code path performs no extract/restore. -/
structure PState where
  ops : List ValOp
  frame : Nat
  deletes : Nat
  adds : Nat
deriving Repr, DecidableEq

/-- The immutable host context: the parameter's keyframe-track ("bare")
value per frame, the per-frame values of source parameters, whether the
host build exposes `UnaffectedValue()` (capability probed by try/except in
the source), the per-frame read-only keyframe flags used by DialAnimation,
and the parameter's limit attributes. -/
structure Ctx where
  bare : Nat → ℚ
  src : Nat → Nat → ℚ
  hasUnaffected : Bool
  constantAt : Nat → Bool
  linearAt : Nat → Bool
  splineAt : Nat → Bool
  splineBreakAt : Nat → Bool
  hasKeyAt : Nat → Bool
  forceLimits : Bool
  minValue : ℚ
  maxValue : ℚ

/-- Outcome of running a piece of the module: a returned value, a Python
exception propagating (`exn`), or an irrecoverable host crash (`crash`). -/
inductive Outcome (α : Type) where
  | ok (value : α)
  | exn
  | crash
deriving Repr, DecidableEq

/-- ApplyParmLimits (PoserDialValue.py line 118): clamp a value to the
parameter's limits when the parameter enforces them. -/
def ApplyParmLimits (ctx : Ctx) (theValue : ℚ) : ℚ :=
  if ctx.forceLimits then max ctx.minValue (min ctx.maxValue theValue)
  else theValue

/-- Modelled from the spec: host evaluation of a keyed/spline operation's
control points at a source value — constant extrapolation outside the key
range, linear interpolation between adjacent points (the host's
higher-order interpolation for three or more points is documented by the
module as not faithfully replicable; claims settled here do not depend on
its exact shape). -/
def interpPoints : List (ℚ × ℚ) → ℚ → ℚ
  | [], _ => 0
  | [(_, v)], _ => v
  | (k1, v1) :: (k2, v2) :: rest, x =>
    if x ≤ k1 then v1
    else if x ≤ k2 then
      (if k2 = k1 then v2 else v1 + (v2 - v1) * (x - k1) / (k2 - k1))
    else interpPoints ((k2, v2) :: rest) x

/-- Modelled from the spec: the influence of a single value operation on
the accumulating parameter value (spec section 3; it is the forward form of
the inverse steps in the module's retired interpolation path, lines
336 to 398).  A corrupted operation or an external python callback
contributes nothing in this model. -/
def applyOp (srcVal : Nat → ℚ) (acc : ℚ) : ValOp → ℚ
  | .deltaAdd (some p) d => acc + d * srcVal p
  | .keyOp (some p) ks => acc + interpPoints ks (srcVal p)
  | .plusOp (some p) => acc + srcVal p
  | .minusOp (some p) => acc - srcVal p
  | .timesOp (some p) => acc * srcVal p
  | .divideBy (some p) => acc / srcVal p
  | .divideInto (some p) => srcVal p / acc
  | _ => acc

/-- Modelled from the spec: the host's computed value of the parameter at
frame `f` — the keyframe-track value combined with the influence of every
attached value operation in order (theParm.ValueFrame(f)). -/
def hostValueFrame (ctx : Ctx) (s : PState) (f : Nat) : ℚ :=
  s.ops.foldl (applyOp (fun p => ctx.src p f)) (ctx.bare f)

/-- theParm.Value() : the computed value at the scene's current frame. -/
def hostValue (ctx : Ctx) (s : PState) : ℚ :=
  hostValueFrame ctx s s.frame

/-- theParm.DeleteValueOperation(idx) : the host deletion primitive.
Counts the invocation, crashes the host irrecoverably when the operation
at `idx` is corrupted (module history v1.5), raises on an invalid index,
and otherwise removes the operation at `idx` from the live list. -/
def deleteValueOperation (s : PState) (idx : Nat) : Outcome Unit × PState :=
  match s.ops[idx]? with
  | none => (.exn, { s with deletes := s.deletes + 1 })
  | some victim =>
    if victim.corrupted then (.crash, { s with deletes := s.deletes + 1 })
    else (.ok (), { s with deletes := s.deletes + 1, ops := s.ops.eraseIdx idx })

/-- theParm.AddValueOperation(type, sourceParm) : the host addition
primitive creates a fresh, unconfigured operation of the given type bound
to the given source parameter.  It fails (raises) when no source parameter
is supplied, and python callbacks cannot be created this way. -/
def addValueOperation (t : ValOpType) (src : Option Nat) : Option ValOp :=
  match src, t with
  | none, _ => none
  | some p, .deltaAdd => some (.deltaAdd (some p) 0)
  | some p, .keyOp => some (.keyOp (some p) [])
  | some p, .divideBy => some (.divideBy (some p))
  | some p, .divideInto => some (.divideInto (some p))
  | some p, .minusOp => some (.minusOp (some p))
  | some p, .plusOp => some (.plusOp (some p))
  | some p, .timesOp => some (.timesOp (some p))
  | some _, .pythonCallBack => none

/-- newValOp.SetDelta(d) : configure the delta scalar of a delta-add
operation (no effect on other types). -/
def setDelta (op : ValOp) (d : ℚ) : ValOp :=
  match op with
  | .deltaAdd s _ => .deltaAdd s d
  | other => other

/-- newValOp.InsertKey(key, value) : append a control point to a keyed
operation (no effect on other types). -/
def insertKey (op : ValOp) (kv : ℚ × ℚ) : ValOp :=
  match op with
  | .keyOp s ks => .keyOp s (ks ++ [kv])
  | other => other

/-- The type-specific configuration steps of RestoreValueOperations
(lines 277 to 283): SetDelta for delta-add; InsertKey over the zero-based
key indices for keyed operations; nothing for the rest. -/
def configureNew (theValOp newValOp : ValOp) : ValOp :=
  if theValOp.typeCode = ValOpType.deltaAdd then
    setDelta newValOp theValOp.deltaOf
  else if theValOp.typeCode = ValOpType.keyOp then
    (List.range theValOp.numKeys).foldl
      (fun nv i => insertKey nv (theValOp.getKey i)) newValOp
  else newValOp

/-- The body of the loop of RemoveValueOperations (lines 245 to 260),
iterating the pairs produced by
`zip( range( NumValueOperations() - 1, -1, -1 ), theValOps )`:
the deletion index descends from the highest index while the snapshot is
traversed forward.  A python callback is skipped; an operation whose
source parameter is present triggers `DeleteValueOperation(valOpIndex)`
(whose own exceptions are re-raised by the source's try/except and whose
crash is unstoppable); an operation whose source parameter is absent
raises the `SourceParameter() is None` PoserError. -/
def removeVOLoop : List (Nat × ValOp) → PState → Outcome Unit × PState
  | [], s => (.ok (), s)
  | (valOpIndex, theValOp) :: rest, s =>
    if theValOp.typeCode = ValOpType.pythonCallBack then removeVOLoop rest s
    else
      match theValOp.sourceParameter with
      | some _ =>
        match deleteValueOperation s valOpIndex with
        | (.ok _, s1) => removeVOLoop rest s1
        | (.exn, s1) => (.exn, s1)
        | (.crash, s1) => (.crash, s1)
      | none => (.exn, s)

/-- RemoveValueOperations (PoserDialValue.py lines 235 to 261): snapshot
the live operation list, run the deletion loop when the parameter has any
operations, and return the snapshot.  (The host returns `None` instead of
an empty snapshot for a parameter without operations; both are modelled by
the empty list, which the source treats identically via its
`NumValueOperations() > 0` and `is not None` guards.) -/
def RemoveValueOperations (s : PState) : Outcome (List ValOp) × PState :=
  let theValOps := s.ops
  if s.ops.length > 0 then
    match removeVOLoop (List.zip (List.range s.ops.length).reverse theValOps) s with
    | (.ok _, s1) => (.ok theValOps, s1)
    | (.exn, s1) => (.exn, s1)
    | (.crash, s1) => (.crash, s1)
  else (.ok theValOps, s)

/-- The loop of RestoreValueOperations (lines 271 to 283): python
callbacks are ignored; every other snapshot entry is re-added via
`AddValueOperation(Type(), SourceParameter())` (counted; a host failure
there propagates uncaught) and then configured type-specifically. -/
def restoreVOLoop : List ValOp → PState → Outcome Unit × PState
  | [], s => (.ok (), s)
  | theValOp :: rest, s =>
    if theValOp.typeCode = ValOpType.pythonCallBack then restoreVOLoop rest s
    else
      let s1 : PState := { s with adds := s.adds + 1 }
      match addValueOperation theValOp.typeCode theValOp.sourceParameter with
      | none => (.exn, s1)
      | some fresh =>
        restoreVOLoop rest { s1 with ops := s1.ops ++ [configureNew theValOp fresh] }

/-- RestoreValueOperations (PoserDialValue.py lines 263 to 283): no-op on
a `None` snapshot, otherwise the forward restoration loop. -/
def RestoreValueOperations (theValOps : Option (List ValOp)) (s : PState) :
    Outcome Unit × PState :=
  match theValOps with
  | none => (.ok (), s)
  | some l => restoreVOLoop l s

/-- DialValue (PoserDialValue.py lines 285 to 443).  The initial
`try: return theParm.UnaffectedValue() except: pass` is the capability
probe; on the slow path with `remove` set, extract, read `Value()`,
restore, return the captured value, with every exception propagating
unhandled; with `remove` unset the retired interpolation branch is a dead
string literal and `return ApplyParmLimits( theParm, theDialValue )`
reads the never-assigned local `theDialValue`, raising UnboundLocalError
(modelled by `exn`); with no operations return `Value()`. -/
def DialValue (ctx : Ctx) (remove : Bool) (s : PState) : Outcome ℚ × PState :=
  if ctx.hasUnaffected then (.ok (ctx.bare s.frame), s)
  else if s.ops.length > 0 then
    if remove then
      match RemoveValueOperations s with
      | (.ok theValOps, s1) =>
        let theDialValue := hostValue ctx s1
        match RestoreValueOperations (some theValOps) s1 with
        | (.ok _, s2) => (.ok theDialValue, s2)
        | (.exn, s2) => (.exn, s2)
        | (.crash, s2) => (.crash, s2)
      | (.exn, s1) => (.exn, s1)
      | (.crash, s1) => (.crash, s1)
    else (.exn, s)
  else (.ok (hostValue ctx s), s)

/-- The shared slow path of DialValueFrames (lines 475 to 496): with
operations present and `remove` set, extract once, read
`theParm.ValueFrame(frame)` for every frame of the inclusive range,
restore once; otherwise read the per-frame values directly. -/
def slowPathFrames (ctx : Ctx) (remove : Bool) (firstFrame lastFrame : Nat)
    (s : PState) : Outcome (List ℚ) × PState :=
  if s.ops.length > 0 then
    if remove then
      match RemoveValueOperations s with
      | (.ok theValOps, s1) =>
        let theValues := (List.range (lastFrame + 1 - firstFrame)).map
          (fun i => hostValueFrame ctx s1 (firstFrame + i))
        match RestoreValueOperations (some theValOps) s1 with
        | (.ok _, s2) => (.ok theValues, s2)
        | (.exn, s2) => (.exn, s2)
        | (.crash, s2) => (.crash, s2)
      | (.exn, s1) => (.exn, s1)
      | (.crash, s1) => (.crash, s1)
    else
      (.ok ((List.range (lastFrame + 1 - firstFrame)).map
        (fun i => hostValueFrame ctx s (firstFrame + i))), s)
  else
    (.ok ((List.range (lastFrame + 1 - firstFrame)).map
      (fun i => hostValueFrame ctx s (firstFrame + i))), s)

/-- The single-frame fast-path attempt of DialValueFrames (lines 461 to
472): inside one `try`, switch the scene to the requested frame when it
differs, query `UnaffectedValue()`, switch back, and return.  When the
query raises (host capability absent) the `except: pass` falls through to
the slow path with the frame still switched, because the restoring
`SetFrame` sits after the query inside the same `try`. -/
def singleFrameFastPath (ctx : Ctx) (firstFrame : Nat) (s : PState) :
    Option (List ℚ) × PState :=
  let frame := s.frame
  let s1 := if frame ≠ firstFrame then { s with frame := firstFrame } else s
  if ctx.hasUnaffected then
    let theValues := [ctx.bare s1.frame]
    let s2 := if frame ≠ firstFrame then { s1 with frame := frame } else s1
    (some theValues, s2)
  else (none, s1)

/-- DialValueFrames (PoserDialValue.py lines 445 to 496). -/
def DialValueFrames (ctx : Ctx) (remove : Bool) (firstFrame lastFrame : Nat)
    (s : PState) : Outcome (List ℚ) × PState :=
  if lastFrame = firstFrame then
    match singleFrameFastPath ctx firstFrame s with
    | (some theValues, s1) => (.ok theValues, s1)
    | (none, s1) => slowPathFrames ctx remove firstFrame lastFrame s1
  else slowPathFrames ctx remove firstFrame lastFrame s

/-- The KeyFrame namedtuple (PoserDialValue.py line 105). -/
structure KeyFrame where
  frame : Nat
  value : ℚ
  const : Bool
  linear : Bool
  spline : Bool
  sbreak : Bool
  haskey : Bool
deriving Repr, DecidableEq

/-- The per-frame KeyFrame record built by DialAnimation from the
read-only keyframe queries and a supplied value. -/
def keyFrameAt (ctx : Ctx) (f : Nat) (v : ℚ) : KeyFrame :=
  ⟨f, v, ctx.constantAt f, ctx.linearAt f, ctx.splineAt f,
    ctx.splineBreakAt f, ctx.hasKeyAt f⟩

/-- The shared slow path of DialAnimation (lines 534 to 570), the
KeyFrame analogue of `slowPathFrames`. -/
def slowPathAnim (ctx : Ctx) (remove : Bool) (firstFrame lastFrame : Nat)
    (s : PState) : Outcome (List KeyFrame) × PState :=
  if s.ops.length > 0 then
    if remove then
      match RemoveValueOperations s with
      | (.ok theValOps, s1) =>
        let theKeyFrames := (List.range (lastFrame + 1 - firstFrame)).map
          (fun i => keyFrameAt ctx (firstFrame + i)
            (hostValueFrame ctx s1 (firstFrame + i)))
        match RestoreValueOperations (some theValOps) s1 with
        | (.ok _, s2) => (.ok theKeyFrames, s2)
        | (.exn, s2) => (.exn, s2)
        | (.crash, s2) => (.crash, s2)
      | (.exn, s1) => (.exn, s1)
      | (.crash, s1) => (.crash, s1)
    else
      (.ok ((List.range (lastFrame + 1 - firstFrame)).map
        (fun i => keyFrameAt ctx (firstFrame + i)
          (hostValueFrame ctx s (firstFrame + i)))), s)
  else
    (.ok ((List.range (lastFrame + 1 - firstFrame)).map
      (fun i => keyFrameAt ctx (firstFrame + i)
        (hostValueFrame ctx s (firstFrame + i)))), s)

/-- The single-frame fast-path attempt of DialAnimation (lines 515 to
531), with the same frame-switching try block as DialValueFrames. -/
def animSingleFrameFastPath (ctx : Ctx) (firstFrame : Nat) (s : PState) :
    Option (List KeyFrame) × PState :=
  let frame := s.frame
  let s1 := if frame ≠ firstFrame then { s with frame := firstFrame } else s
  if ctx.hasUnaffected then
    let theKeyFrames := [keyFrameAt ctx firstFrame (ctx.bare s1.frame)]
    let s2 := if frame ≠ firstFrame then { s1 with frame := frame } else s1
    (some theKeyFrames, s2)
  else (none, s1)

/-- DialAnimation (PoserDialValue.py lines 498 to 570). -/
def DialAnimation (ctx : Ctx) (remove : Bool) (firstFrame lastFrame : Nat)
    (s : PState) : Outcome (List KeyFrame) × PState :=
  if lastFrame = firstFrame then
    match animSingleFrameFastPath ctx firstFrame s with
    | (some theKeyFrames, s1) => (.ok theKeyFrames, s1)
    | (none, s1) => slowPathAnim ctx remove firstFrame lastFrame s1
  else slowPathAnim ctx remove firstFrame lastFrame s

/-- An operation with a present source parameter is not a python callback
(callbacks have no source parameter). -/
theorem typeCode_ne_callback_of_src {op : ValOp} (h : op.sourceParameter.isSome) :
    op.typeCode ≠ ValOpType.pythonCallBack := by
  cases op <;> simp [ValOp.sourceParameter, ValOp.typeCode] at h ⊢

/-- An operation with a present source parameter is not corrupted. -/
theorem corrupted_eq_false_of_src {op : ValOp} (h : op.sourceParameter.isSome) :
    op.corrupted = false := by
  obtain ⟨p, hp⟩ := Option.isSome_iff_exists.mp h
  cases op <;> simp_all [ValOp.sourceParameter, ValOp.corrupted, ValOp.typeCode]

theorem eraseIdx_concat (l : List ValOp) (a : ValOp) :
    (l ++ [a]).eraseIdx l.length = l := by
  induction l with
  | nil => rfl
  | cons x xs ih => simpa [List.eraseIdx] using ih

theorem getElem?_concat_len (l : List ValOp) (a : ValOp) :
    (l ++ [a])[l.length]? = some a := by
  induction l with
  | nil => rfl
  | cons x xs ih => simp [ih]

theorem reverse_range_succ (n : Nat) :
    (List.range (n + 1)).reverse = n :: (List.range n).reverse := by
  rw [List.range_succ, List.reverse_append]
  simp

/-- The deletion loop of RemoveValueOperations over the zipped descending
index list, run on a parameter all of whose live operations are
uncorrupted and all of whose snapshot entries have a present source
parameter, deletes every live operation (from the highest index down) and
succeeds. -/
theorem removeVOLoop_all_good :
    ∀ (snap live : List ValOp) (s : PState), s.ops = live →
      snap.length = live.length →
      (∀ op ∈ snap, op.sourceParameter.isSome) →
      (∀ op ∈ live, op.corrupted = false) →
      removeVOLoop ((List.range snap.length).reverse.zip snap) s =
        (.ok (), { s with ops := [], deletes := s.deletes + snap.length }) := by
  intro snap
  induction snap with
  | nil =>
    intro live s hops hlen _ _
    have : live = [] := by
      cases live with
      | nil => rfl
      | cons a l => simp at hlen
    cases s
    simp_all [removeVOLoop]
  | cons t ts ih =>
    intro live s hops hlen hsnap hlive
    have hlive_ne : live ≠ [] := by
      intro h
      rw [h] at hlen
      simp at hlen
    have hsplit := List.dropLast_append_getLast hlive_ne
    set m := live.getLast hlive_ne with hm
    set front := live.dropLast with hfront
    have hflen : front.length = ts.length := by
      have : live.length = ts.length + 1 := by simpa using hlen.symm
      simp [hfront, List.length_dropLast, this]
    have hts : (t :: ts).length = ts.length + 1 := by simp
    rw [hts, reverse_range_succ, List.zip_cons_cons, removeVOLoop]
    have htsrc : t.sourceParameter.isSome := hsnap t (by simp)
    have htnc : ¬ t.typeCode = ValOpType.pythonCallBack :=
      typeCode_ne_callback_of_src htsrc
    rw [if_neg htnc]
    obtain ⟨p, hp⟩ := Option.isSome_iff_exists.mp htsrc
    rw [hp]
    have hvict : s.ops[ts.length]? = some m := by
      simp only [hops, ← hsplit, ← hflen]
      exact getElem?_concat_len front m
    have hmnc : m.corrupted = false := by
      refine hlive m ?_
      rw [← hsplit]
      simp
    have herase : s.ops.eraseIdx ts.length = front := by
      simp only [hops, ← hsplit, ← hflen]
      exact eraseIdx_concat front m
    rw [deleteValueOperation, hvict]
    simp only [hmnc, Bool.false_eq_true, if_false, herase]
    have hrec := ih front { s with deletes := s.deletes + 1, ops := front } rfl
      hflen.symm (fun op hop => hsnap op (by simp [hop]))
      (fun op hop => hlive op (by rw [← hsplit]; exact List.mem_append_left _ hop))
    rw [hrec]
    have : s.deletes + 1 + ts.length = s.deletes + (ts.length + 1) := by omega
    simp [this]

/-- RemoveValueOperations on a parameter all of whose operations have a
present source parameter: every operation is deleted, the full snapshot is
returned, and the deletion primitive is invoked once per operation. -/
theorem RemoveValueOperations_all_good (s : PState)
    (h : ∀ op ∈ s.ops, op.sourceParameter.isSome) :
    RemoveValueOperations s =
      (.ok s.ops, { s with ops := [], deletes := s.deletes + s.ops.length }) := by
  have hloop := removeVOLoop_all_good s.ops s.ops s rfl rfl h
    (fun op hop => corrupted_eq_false_of_src (h op hop))
  rw [RemoveValueOperations]
  rcases hops : s.ops with _ | ⟨a, l⟩
  · cases s
    simp_all
  · rw [← hops]
    have hlen : s.ops.length > 0 := by rw [hops]; simp
    simp only [if_pos hlen, hloop]

/-- Appending the control points of a keyed operation one by one, reading
them back with zero-based GetKey indices, rebuilds the full point list. -/
theorem insertKey_foldl (ks : List (ℚ × ℚ)) (src : Option Nat) :
    ∀ done : List (ℚ × ℚ),
      (List.range ks.length).foldl
        (fun nv i => insertKey nv (ks.getD i (0, 0))) (ValOp.keyOp src done) =
      ValOp.keyOp src (done ++ ks) := by
  induction ks with
  | nil => intro done; simp
  | cons k ks ih =>
    intro done
    rw [List.length_cons, List.range_succ_eq_map, List.foldl_cons, List.foldl_map]
    have hstep : insertKey (ValOp.keyOp src done) ((k :: ks).getD 0 (0, 0)) =
        ValOp.keyOp src (done ++ [k]) := by
      simp [insertKey]
    rw [hstep]
    have hread : ∀ (nv : ValOp) (i : Nat),
        insertKey nv ((k :: ks).getD (Nat.succ i) (0, 0)) =
        insertKey nv (ks.getD i (0, 0)) := by
      intro nv i
      simp [List.getD]
    simp only [hread]
    rw [ih (done ++ [k])]
    simp

/-- Re-adding one non-callback snapshot entry with a present source
parameter and re-applying its type-specific configuration reconstructs the
entry exactly. -/
theorem reconstruct_exact (op : ValOp) (p : Nat) (hp : op.sourceParameter = some p) :
    ∃ fresh, addValueOperation op.typeCode op.sourceParameter = some fresh ∧
      configureNew op fresh = op := by
  cases op with
  | deltaAdd s d =>
    cases hp
    exact ⟨_, rfl, by simp [configureNew, ValOp.typeCode, setDelta, ValOp.deltaOf]⟩
  | keyOp s ks =>
    cases hp
    refine ⟨_, rfl, ?_⟩
    simp only [configureNew, ValOp.typeCode, reduceCtorEq, if_false, if_pos,
      ValOp.numKeys]
    have := insertKey_foldl ks (some p) []
    simpa [ValOp.getKey] using this
  | divideBy s => cases hp; exact ⟨_, rfl, by simp [configureNew, ValOp.typeCode]⟩
  | divideInto s => cases hp; exact ⟨_, rfl, by simp [configureNew, ValOp.typeCode]⟩
  | minusOp s => cases hp; exact ⟨_, rfl, by simp [configureNew, ValOp.typeCode]⟩
  | plusOp s => cases hp; exact ⟨_, rfl, by simp [configureNew, ValOp.typeCode]⟩
  | timesOp s => cases hp; exact ⟨_, rfl, by simp [configureNew, ValOp.typeCode]⟩
  | pythonCallBack => cases hp

/-- The restoration loop on a snapshot all of whose entries have a present
source parameter appends a faithful reconstruction of every entry, in
order, and succeeds. -/
theorem restoreVOLoop_all_good :
    ∀ (snap : List ValOp) (s : PState),
      (∀ op ∈ snap, op.sourceParameter.isSome) →
      restoreVOLoop snap s =
        (.ok (), { s with ops := s.ops ++ snap, adds := s.adds + snap.length }) := by
  intro snap
  induction snap with
  | nil =>
    intro s _
    cases s
    simp [restoreVOLoop]
  | cons t ts ih =>
    intro s hsnap
    have htsrc : t.sourceParameter.isSome := hsnap t (by simp)
    have htnc : ¬ t.typeCode = ValOpType.pythonCallBack :=
      typeCode_ne_callback_of_src htsrc
    obtain ⟨p, hp⟩ := Option.isSome_iff_exists.mp htsrc
    obtain ⟨fresh, hadd, hconf⟩ := reconstruct_exact t p hp
    rw [restoreVOLoop, if_neg htnc]
    simp only [hadd, hconf]
    rw [ih _ (fun op hop => hsnap op (by simp [hop]))]
    have : s.adds + 1 + ts.length = s.adds + (ts.length + 1) := by omega
    simp [this]

theorem deleteValueOperation_frame (s : PState) (idx : Nat) :
    ((deleteValueOperation s idx).2).frame = s.frame := by
  simp only [deleteValueOperation]
  rcases h : s.ops[idx]? with _ | v
  · rfl
  · dsimp only
    split <;> rfl

theorem removeVOLoop_frame (l : List (Nat × ValOp)) : ∀ s : PState,
    ((removeVOLoop l s).2).frame = s.frame := by
  induction l with
  | nil => intro s; rfl
  | cons hd tl ih =>
    intro s
    obtain ⟨idx, op⟩ := hd
    rw [removeVOLoop]
    by_cases hcb : op.typeCode = ValOpType.pythonCallBack
    · rw [if_pos hcb]
      exact ih s
    · rw [if_neg hcb]
      rcases hsrc : op.sourceParameter with _ | p
      · rfl
      · rcases hdel : deleteValueOperation s idx with ⟨o, s1⟩
        have hfr : s1.frame = s.frame := by
          have h2 := deleteValueOperation_frame s idx
          rw [hdel] at h2
          exact h2
        cases o
        · simp only [hdel]
          rw [ih s1, hfr]
        · simp only [hdel]
          exact hfr
        · simp only [hdel]
          exact hfr

theorem restoreVOLoop_frame (l : List ValOp) : ∀ s : PState,
    ((restoreVOLoop l s).2).frame = s.frame := by
  induction l with
  | nil => intro s; rfl
  | cons op tl ih =>
    intro s
    rw [restoreVOLoop]
    by_cases hcb : op.typeCode = ValOpType.pythonCallBack
    · rw [if_pos hcb]
      exact ih s
    · rw [if_neg hcb]
      rcases hadd : addValueOperation op.typeCode op.sourceParameter with _ | fresh
      · simp only [hadd]
      · simp only [hadd]
        rw [ih _]

theorem RemoveValueOperations_frame (s : PState) :
    ((RemoveValueOperations s).2).frame = s.frame := by
  simp only [RemoveValueOperations]
  split
  · rcases h : removeVOLoop ((List.range s.ops.length).reverse.zip s.ops) s with ⟨o, s1⟩
    have hfr : s1.frame = s.frame := by
      have h2 := removeVOLoop_frame ((List.range s.ops.length).reverse.zip s.ops) s
      rw [h] at h2
      exact h2
    cases o <;> simp only [h] <;> exact hfr
  · rfl

theorem RestoreValueOperations_frame (o : Option (List ValOp)) (s : PState) :
    ((RestoreValueOperations o s).2).frame = s.frame := by
  cases o
  · rfl
  · exact restoreVOLoop_frame _ s

theorem slowPathFrames_frame (ctx : Ctx) (r : Bool) (a b : Nat) (s : PState) :
    ((slowPathFrames ctx r a b s).2).frame = s.frame := by
  simp only [slowPathFrames]
  split
  · split
    · rcases h : RemoveValueOperations s with ⟨o, s1⟩
      have h1 : s1.frame = s.frame := by
        have h2 := RemoveValueOperations_frame s
        rw [h] at h2
        exact h2
      cases o with
      | ok snap =>
        simp only [h]
        rcases h3 : RestoreValueOperations (some snap) s1 with ⟨o2, s2⟩
        have h4 : s2.frame = s1.frame := by
          have h5 := RestoreValueOperations_frame (some snap) s1
          rw [h3] at h5
          exact h5
        cases o2 <;> simp only [h3] <;> rw [h4, h1]
      | exn =>
        simp only [h]
        exact h1
      | crash =>
        simp only [h]
        exact h1
    · rfl
  · rfl

theorem slowPathAnim_frame (ctx : Ctx) (r : Bool) (a b : Nat) (s : PState) :
    ((slowPathAnim ctx r a b s).2).frame = s.frame := by
  simp only [slowPathAnim]
  split
  · split
    · rcases h : RemoveValueOperations s with ⟨o, s1⟩
      have h1 : s1.frame = s.frame := by
        have h2 := RemoveValueOperations_frame s
        rw [h] at h2
        exact h2
      cases o with
      | ok snap =>
        simp only [h]
        rcases h3 : RestoreValueOperations (some snap) s1 with ⟨o2, s2⟩
        have h4 : s2.frame = s1.frame := by
          have h5 := RestoreValueOperations_frame (some snap) s1
          rw [h3] at h5
          exact h5
        cases o2 <;> simp only [h3] <;> rw [h4, h1]
      | exn =>
        simp only [h]
        exact h1
      | crash =>
        simp only [h]
        exact h1
    · rfl
  · rfl

/-- DialValue always raises and performs no restoration when the
extraction step raises: the exception propagates with the state exactly as
the failed extraction left it (there is no try/finally around the
extract-read-restore sequence).  Shared by the theorems on claims C2 and
C8. -/
theorem dialValue_extract_exn (ctx : Ctx) (s : PState)
    (hU : ctx.hasUnaffected = false)
    (hex : (RemoveValueOperations s).1 = Outcome.exn) :
    DialValue ctx true s = (Outcome.exn, (RemoveValueOperations s).2) := by
  have hops : s.ops.length > 0 := by
    rcases h : s.ops with _ | ⟨a, l⟩
    · exfalso
      simp only [RemoveValueOperations, h] at hex
      simp at hex
    · simp [h]
  simp only [DialValue, hU, Bool.false_eq_true, if_false, if_pos hops, if_pos]
  rcases h : RemoveValueOperations s with ⟨o, s1⟩
  rw [h] at hex
  simp only at hex
  subst hex
  simp only [h]

/-- The single-frame fast-path attempt of DialValueFrames, characterised:
with the capability it returns the bare value at the requested frame and
restores the scene frame; without it the attempt falls through with the
scene left at the requested frame. -/
theorem singleFrameFastPath_spec (ctx : Ctx) (f : Nat) (s : PState) :
    singleFrameFastPath ctx f s =
      if ctx.hasUnaffected then (some [ctx.bare f], s)
      else (none, { s with frame := f }) := by
  simp only [singleFrameFastPath]
  by_cases hf : s.frame = f
  · have h1 : ({ s with frame := f } : PState) = s := by
      cases s
      simp_all
    by_cases hU : ctx.hasUnaffected = true <;> simp [hf, hU, h1]
  · have h2 : ({ { s with frame := f } with frame := s.frame } : PState) = s := by
      cases s
      simp
    by_cases hU : ctx.hasUnaffected = true <;> simp [hf, hU, h2]

/-- The single-frame fast-path attempt of DialAnimation, characterised the
same way as that of DialValueFrames. -/
theorem animSingleFrameFastPath_spec (ctx : Ctx) (f : Nat) (s : PState) :
    animSingleFrameFastPath ctx f s =
      if ctx.hasUnaffected then (some [keyFrameAt ctx f (ctx.bare f)], s)
      else (none, { s with frame := f }) := by
  simp only [animSingleFrameFastPath]
  by_cases hf : s.frame = f
  · have h1 : ({ s with frame := f } : PState) = s := by
      cases s
      simp_all
    by_cases hU : ctx.hasUnaffected = true <;> simp [hf, hU, h1]
  · have h2 : ({ { s with frame := f } with frame := s.frame } : PState) = s := by
      cases s
      simp
    by_cases hU : ctx.hasUnaffected = true <;> simp [hf, hU, h2]

/-- The value DialValue returns, with the remove flag set, for a parameter
all of whose operations have a present source parameter: the keyframe-track
value at the scene's current frame, on the fast and the slow path alike. -/
theorem dialValue_all_good (ctx : Ctx) (s : PState)
    (h : ∀ op ∈ s.ops, op.sourceParameter.isSome) :
    (DialValue ctx true s).1 = Outcome.ok (ctx.bare s.frame) := by
  by_cases hU : ctx.hasUnaffected = true
  · simp [DialValue, hU]
  · rw [Bool.not_eq_true] at hU
    rcases hops : s.ops with _ | ⟨o1, l⟩
    · simp [DialValue, hU, hops, hostValue, hostValueFrame]
    · have hlen : s.ops.length > 0 := by simp [hops]
      have hrm := RemoveValueOperations_all_good s h
      simp only [DialValue, hU, Bool.false_eq_true, if_false, if_pos hlen,
        if_true, hrm]
      have hrs := restoreVOLoop_all_good s.ops
        { s with ops := [], deletes := s.deletes + s.ops.length } h
      simp only [RestoreValueOperations, hrs]
      simp [hostValue, hostValueFrame]

/-- The values of the shared slow path of DialValueFrames, with the remove
flag set, for a parameter all of whose operations have a present source
parameter: the keyframe-track value at each frame of the range. -/
theorem slowPathFrames_all_good (ctx : Ctx) (a b : Nat) (s : PState)
    (h : ∀ op ∈ s.ops, op.sourceParameter.isSome) :
    (slowPathFrames ctx true a b s).1 =
      Outcome.ok ((List.range (b + 1 - a)).map (fun i => ctx.bare (a + i))) := by
  rcases hops : s.ops with _ | ⟨o1, l⟩
  · simp [slowPathFrames, hops, hostValueFrame]
  · have hlen : s.ops.length > 0 := by simp [hops]
    have hrm := RemoveValueOperations_all_good s h
    simp only [slowPathFrames, if_pos hlen, if_true, hrm]
    have hrs := restoreVOLoop_all_good s.ops
      { s with ops := [], deletes := s.deletes + s.ops.length } h
    simp only [RestoreValueOperations, hrs]
    simp [hostValueFrame]

/-- The values DialValueFrames returns, with the remove flag set, for a
parameter all of whose operations have a present source parameter. -/
theorem dialValueFrames_all_good (ctx : Ctx) (a b : Nat) (s : PState)
    (h : ∀ op ∈ s.ops, op.sourceParameter.isSome) :
    (DialValueFrames ctx true a b s).1 =
      Outcome.ok ((List.range (b + 1 - a)).map (fun i => ctx.bare (a + i))) := by
  by_cases hab : b = a
  · subst hab
    rw [DialValueFrames, if_pos rfl, singleFrameFastPath_spec]
    by_cases hU : ctx.hasUnaffected = true
    · rw [if_pos hU]
      rw [show b + 1 - b = 1 from by omega]
      simp [List.range_succ]
    · rw [Bool.not_eq_true] at hU
      rw [if_neg (by simp [hU])]
      exact slowPathFrames_all_good ctx b b { s with frame := b } h
  · rw [DialValueFrames, if_neg hab]
    exact slowPathFrames_all_good ctx a b s h

theorem addValueOperation_none (t : ValOpType) : addValueOperation t none = none := by
  cases t <;> rfl

/-- A host context without the UnaffectedValue capability, whose parameter
keyframe track reads zero at every frame and whose source parameters read
one at every frame; used for the concrete evaluations below. -/
def ctxSlow : Ctx :=
  ⟨fun _ => 0, fun _ _ => 1, false, fun _ => false, fun _ => false, fun _ => false,
   fun _ => false, fun _ => false, false, 0, 0⟩

/-- The same host context with the UnaffectedValue capability present. -/
def ctxFast : Ctx := { ctxSlow with hasUnaffected := true }

/-- Claim C1: the claim states that RemoveValueOperations checks each
non-callback operation's source parameter and never invokes the host
deletion primitive on an operation whose source parameter is absent.  The
code violates this: `zip( range( N - 1, -1, -1 ), theValOps )` pairs the
descending deletion index with a forward traversal of the snapshot, so
iteration j checks operation j but deletes operation N - 1 - j.  On a
parameter whose operations are a healthy delta-add followed by a corrupted
one, the first iteration checks the healthy operation and then calls
DeleteValueOperation(1) on the corrupted one, crashing the host. -/
theorem c1_extract_deletes_corrupted :
    RemoveValueOperations ⟨[ValOp.deltaAdd (some 0) 1, ValOp.deltaAdd none 1], 0, 0, 0⟩ =
      (Outcome.crash,
        ⟨[ValOp.deltaAdd (some 0) 1, ValOp.deltaAdd none 1], 0, 1, 0⟩) := by
  rfl

/-- Claim C2 (counterexample): on a parameter with operations
[healthy, corrupted, healthy] and no fast-path capability, DialValue's
extraction deletes the trailing healthy operation (mirrored index 2),
then raises on the corrupted snapshot entry; DialValue propagates the
exception with the parameter left half-extracted (two operations remain)
and without a single restoring addition, contradicting the claim that
already-removed operations are restored before the error surfaces. -/
theorem c2_counterexample :
    (DialValue ctxSlow true ⟨[ValOp.deltaAdd (some 0) 1, ValOp.deltaAdd none 1,
        ValOp.deltaAdd (some 1) 1], 0, 0, 0⟩).1 = Outcome.exn ∧
    (DialValue ctxSlow true ⟨[ValOp.deltaAdd (some 0) 1, ValOp.deltaAdd none 1,
        ValOp.deltaAdd (some 1) 1], 0, 0, 0⟩).2.ops =
      [ValOp.deltaAdd (some 0) 1, ValOp.deltaAdd none 1] ∧
    (DialValue ctxSlow true ⟨[ValOp.deltaAdd (some 0) 1, ValOp.deltaAdd none 1,
        ValOp.deltaAdd (some 1) 1], 0, 0, 0⟩).2.adds = 0 :=
  ⟨rfl, rfl, rfl⟩

/-- Claim C2 (amended): the slow path of DialValue restores the extracted
operations only on the success path; when the extraction raises, the
exception propagates with the state exactly as extraction left it — no
restoration of already-removed operations occurs, since the source has no
try/finally around the extract-read-restore sequence. -/
theorem c2_no_restore_on_extract_failure (ctx : Ctx) (s : PState)
    (hU : ctx.hasUnaffected = false)
    (hex : (RemoveValueOperations s).1 = Outcome.exn) :
    DialValue ctx true s = (Outcome.exn, (RemoveValueOperations s).2) :=
  dialValue_extract_exn ctx s hU hex

theorem c2_no_restore_on_extract_failure_witness :
    ctxSlow.hasUnaffected = false ∧
    (RemoveValueOperations ⟨[ValOp.deltaAdd none 1], 0, 0, 0⟩).1 = Outcome.exn ∧
    DialValue ctxSlow true ⟨[ValOp.deltaAdd none 1], 0, 0, 0⟩ =
      (Outcome.exn, (RemoveValueOperations ⟨[ValOp.deltaAdd none 1], 0, 0, 0⟩).2) :=
  ⟨rfl, rfl, c2_no_restore_on_extract_failure ctxSlow ⟨[ValOp.deltaAdd none 1], 0, 0, 0⟩ rfl rfl⟩

/-- Claim C3: for a parameter whose operations all have a present source
parameter, RemoveValueOperations followed immediately by
RestoreValueOperations on the returned snapshot reproduces the operation
list exactly — same count, types, order, sources and per-type
configuration (delta scalar, ordered control points) — and therefore
leaves the parameter's computed value unchanged at every frame. -/
theorem c3_extract_restore_roundtrip (ctx : Ctx) (s : PState)
    (h : ∀ op ∈ s.ops, op.sourceParameter.isSome) :
    ∃ s1 s2, RemoveValueOperations s = (Outcome.ok s.ops, s1) ∧
      RestoreValueOperations (some s.ops) s1 = (Outcome.ok (), s2) ∧
      s2.ops = s.ops ∧
      ∀ f, hostValueFrame ctx s2 f = hostValueFrame ctx s f := by
  have hrm := RemoveValueOperations_all_good s h
  have hrs := restoreVOLoop_all_good s.ops
    { s with ops := [], deletes := s.deletes + s.ops.length } h
  have hrest : RestoreValueOperations (some s.ops)
      { s with ops := [], deletes := s.deletes + s.ops.length } =
      (Outcome.ok (),
        { s with ops := [] ++ s.ops, deletes := s.deletes + s.ops.length, adds := s.adds + s.ops.length }) := by
    simp only [RestoreValueOperations]
    exact hrs
  exact ⟨_, _, hrm, hrest, by simp, fun f => by simp [hostValueFrame]⟩

theorem c3_extract_restore_roundtrip_witness :
    (∀ op ∈ ([ValOp.deltaAdd (some 0) 2, ValOp.plusOp (some 1),
        ValOp.keyOp (some 2) [(0, 1), (2, 3)]] : List ValOp),
      op.sourceParameter.isSome) ∧
    (∃ s1 s2,
      RemoveValueOperations ⟨[ValOp.deltaAdd (some 0) 2, ValOp.plusOp (some 1),
        ValOp.keyOp (some 2) [(0, 1), (2, 3)]], 0, 0, 0⟩ =
        (Outcome.ok (⟨[ValOp.deltaAdd (some 0) 2, ValOp.plusOp (some 1),
          ValOp.keyOp (some 2) [(0, 1), (2, 3)]], 0, 0, 0⟩ : PState).ops, s1) ∧
      RestoreValueOperations (some (⟨[ValOp.deltaAdd (some 0) 2, ValOp.plusOp (some 1),
          ValOp.keyOp (some 2) [(0, 1), (2, 3)]], 0, 0, 0⟩ : PState).ops) s1 =
        (Outcome.ok (), s2) ∧
      s2.ops = (⟨[ValOp.deltaAdd (some 0) 2, ValOp.plusOp (some 1),
        ValOp.keyOp (some 2) [(0, 1), (2, 3)]], 0, 0, 0⟩ : PState).ops ∧
      ∀ f, hostValueFrame ctxSlow s2 f =
        hostValueFrame ctxSlow ⟨[ValOp.deltaAdd (some 0) 2, ValOp.plusOp (some 1),
          ValOp.keyOp (some 2) [(0, 1), (2, 3)]], 0, 0, 0⟩ f) :=
  ⟨by decide, c3_extract_restore_roundtrip ctxSlow
    ⟨[ValOp.deltaAdd (some 0) 2, ValOp.plusOp (some 1),
      ValOp.keyOp (some 2) [(0, 1), (2, 3)]], 0, 0, 0⟩ (by decide)⟩

/-- Claim C4: the claim states that python-callback operations are never
deleted by extraction and are still attached after it.  The code violates
this through the same mirrored zip indexing as in claim C1: on a parameter
whose operations are a healthy delta-add followed by a python callback,
the first iteration checks the delta-add but calls DeleteValueOperation(1),
deleting the callback; afterwards the parameter retains no callback at
all, while the snapshot still lists it. -/
theorem c4_extract_deletes_callback :
    RemoveValueOperations ⟨[ValOp.deltaAdd (some 0) 1, ValOp.pythonCallBack], 0, 0, 0⟩ =
      (Outcome.ok [ValOp.deltaAdd (some 0) 1, ValOp.pythonCallBack],
        ⟨[ValOp.deltaAdd (some 0) 1], 0, 1, 0⟩) ∧
    ∀ op ∈ (RemoveValueOperations
        ⟨[ValOp.deltaAdd (some 0) 1, ValOp.pythonCallBack], 0, 0, 0⟩).2.ops,
      op.typeCode ≠ ValOpType.pythonCallBack :=
  ⟨rfl, by decide⟩

/-- Claim C5 (counterexample): with the fast-path capability present and a
parameter carrying a delta-add plus a python callback, DialValueFrames over
frames 0..1 takes the multi-frame slow path, whose extraction deletes the
callback but leaves the delta-add attached, so the returned values are
still influenced (1 each); DialValue at either frame takes the fast path
and returns the unaffected value 0 — the two paths disagree. -/
theorem c5_counterexample :
    (DialValueFrames ctxFast true 0 1 ⟨[ValOp.deltaAdd (some 0) 1,
        ValOp.pythonCallBack], 0, 0, 0⟩).1 = Outcome.ok [1, 1] ∧
    (DialValue ctxFast true ⟨[ValOp.deltaAdd (some 0) 1,
        ValOp.pythonCallBack], 0, 0, 0⟩).1 = Outcome.ok 0 ∧
    (DialValue ctxFast true ⟨[ValOp.deltaAdd (some 0) 1,
        ValOp.pythonCallBack], 1, 0, 0⟩).1 = Outcome.ok 0 ∧
    (1 : ℚ) ≠ 0 := by
  refine ⟨?_, rfl, rfl, by norm_num⟩
  have h2 : (DialValueFrames ctxFast true 0 1 ⟨[ValOp.deltaAdd (some 0) 1,
      ValOp.pythonCallBack], 0, 0, 0⟩).1 =
      Outcome.ok [hostValueFrame ctxFast ⟨[ValOp.deltaAdd (some 0) 1], 0, 1, 0⟩ 0,
        hostValueFrame ctxFast ⟨[ValOp.deltaAdd (some 0) 1], 0, 1, 0⟩ 1] := rfl
  rw [h2]
  norm_num [hostValueFrame, applyOp, ctxFast, ctxSlow, List.foldl_cons, List.foldl_nil]

/-- Claim C5 (amended): for a parameter whose operations all have present
source parameters (in particular, no python callbacks) and with the remove
flag set, DialValueFrames over frames a ≤ b returns exactly b - a + 1
values and its i-th value equals what DialValue returns with the scene at
frame a + i. -/
theorem c5_frames_agree_amended (ctx : Ctx) (s : PState) (a b : Nat)
    (hab : a ≤ b) (h : ∀ op ∈ s.ops, op.sourceParameter.isSome) :
    ∃ vals, (DialValueFrames ctx true a b s).1 = Outcome.ok vals ∧
      vals.length = b - a + 1 ∧
      ∀ i, i < vals.length →
        (DialValue ctx true { s with frame := a + i }).1 =
          Outcome.ok (vals.getD i 0) := by
  refine ⟨(List.range (b + 1 - a)).map (fun i => ctx.bare (a + i)),
    dialValueFrames_all_good ctx a b s h, ?_, ?_⟩
  · simp
    omega
  · intro i hi
    simp only [List.length_map, List.length_range] at hi
    have hv := dialValue_all_good ctx { s with frame := a + i } h
    rw [hv]
    have hd : ((List.range (b + 1 - a)).map (fun i => ctx.bare (a + i))).getD i 0 =
        ctx.bare (a + i) := by
      have h1 : ((List.range (b + 1 - a)).map (fun i => ctx.bare (a + i)))[i]? =
          some (ctx.bare (a + i)) := by
        rw [List.getElem?_map, List.getElem?_range hi]
        rfl
      simp [List.getD, h1]
    rw [hd]

theorem c5_frames_agree_amended_witness :
    (0 : Nat) ≤ 2 ∧
    (∀ op ∈ ([ValOp.deltaAdd (some 0) 3] : List ValOp), op.sourceParameter.isSome) ∧
    (∃ vals, (DialValueFrames ctxSlow true 0 2
        ⟨[ValOp.deltaAdd (some 0) 3], 1, 0, 0⟩).1 = Outcome.ok vals ∧
      vals.length = 2 - 0 + 1 ∧
      ∀ i, i < vals.length →
        (DialValue ctxSlow true { (⟨[ValOp.deltaAdd (some 0) 3], 1, 0, 0⟩ : PState)
            with frame := 0 + i }).1 = Outcome.ok (vals.getD i 0)) :=
  ⟨by decide, by decide, c5_frames_agree_amended ctxSlow
    ⟨[ValOp.deltaAdd (some 0) 3], 1, 0, 0⟩ 0 2 (by decide) (by decide)⟩

/-- Claim C6 (counterexample): with the unaffected-value query unavailable
and the scene at frame 0, the single-frame call for frame 1 leaves the
scene's frame switched to 1 when the fast-path attempt falls through —
the restoring SetFrame sits after the raising query inside the same try —
so the frame does not equal its original value when the slow path begins,
for DialValueFrames and DialAnimation alike. -/
theorem c6_counterexample :
    ((DialValueFrames ctxSlow true 1 1 ⟨[], 0, 0, 0⟩).2).frame ≠
      (⟨[], 0, 0, 0⟩ : PState).frame ∧
    ((DialAnimation ctxSlow true 1 1 ⟨[], 0, 0, 0⟩).2).frame ≠
      (⟨[], 0, 0, 0⟩ : PState).frame := by
  constructor <;> decide

/-- Claim C6 (amended): in the single-frame case the scene frame is
restored on the successful fast-path exit, but when the unaffected-value
query raises, the scene is left at the requested frame as the slow path
begins and when the call returns (the slow path never changes the frame). -/
theorem c6_frame_after_fast_path (ctx : Ctx) (r : Bool) (f : Nat) (s : PState) :
    ((DialValueFrames ctx r f f s).2).frame =
      (if ctx.hasUnaffected then s.frame else f) ∧
    ((DialAnimation ctx r f f s).2).frame =
      (if ctx.hasUnaffected then s.frame else f) := by
  constructor
  · rw [DialValueFrames, if_pos rfl, singleFrameFastPath_spec]
    by_cases hU : ctx.hasUnaffected = true
    · simp [hU]
    · rw [Bool.not_eq_true] at hU
      simp only [hU, Bool.false_eq_true, if_false]
      rw [slowPathFrames_frame]
  · rw [DialAnimation, if_pos rfl, animSingleFrameFastPath_spec]
    by_cases hU : ctx.hasUnaffected = true
    · simp [hU]
    · rw [Bool.not_eq_true] at hU
      simp only [hU, Bool.false_eq_true, if_false]
      rw [slowPathAnim_frame]

/-- Claim C7 (counterexample): restoring a snapshot whose first entry makes
the host addition primitive fail (its source parameter is absent) raises
immediately and leaves the second, perfectly restorable entry unprocessed
— the parameter's operation list stays empty — even though restoring the
second entry alone succeeds; the claim's best-effort continuation does not
exist in the code. -/
theorem c7_counterexample :
    RestoreValueOperations (some [ValOp.deltaAdd none 1, ValOp.deltaAdd (some 0) 2])
        ⟨[], 0, 0, 0⟩ =
      (Outcome.exn, ⟨[], 0, 0, 1⟩) ∧
    RestoreValueOperations (some [ValOp.deltaAdd (some 0) 2]) ⟨[], 0, 0, 0⟩ =
      (Outcome.ok (), ⟨[ValOp.deltaAdd (some 0) 2], 0, 0, 1⟩) :=
  ⟨rfl, rfl⟩

/-- Claim C7 (amended): when the host addition primitive fails while
RestoreValueOperations re-applies a snapshot entry, the failure propagates
at once: entries before the failing one are restored, and the failing
entry and everything after it are not processed — the loop body has no
exception handling. -/
theorem c7_restore_aborts_on_failure :
    ∀ (pre : List ValOp) (s : PState) (post : List ValOp) (bad : ValOp),
      (∀ op ∈ pre, op.sourceParameter.isSome) →
      bad.typeCode ≠ ValOpType.pythonCallBack →
      bad.sourceParameter = none →
      RestoreValueOperations (some (pre ++ bad :: post)) s =
        (Outcome.exn, { s with ops := s.ops ++ pre, adds := s.adds + pre.length + 1 }) := by
  intro pre
  induction pre with
  | nil =>
    intro s post bad _ hnc hsrc
    simp only [RestoreValueOperations, List.nil_append]
    rw [restoreVOLoop]
    simp only [if_neg hnc, hsrc, addValueOperation_none]
    simp
  | cons t ts ih =>
    intro s post bad hpre hnc hsrc
    have htsrc : t.sourceParameter.isSome := hpre t (by simp)
    have htnc := typeCode_ne_callback_of_src htsrc
    obtain ⟨p, hp⟩ := Option.isSome_iff_exists.mp htsrc
    obtain ⟨fresh, hadd, hconf⟩ := reconstruct_exact t p hp
    simp only [RestoreValueOperations, List.cons_append]
    rw [restoreVOLoop]
    simp only [if_neg htnc, hadd, hconf]
    have hrec := ih { s with adds := s.adds + 1, ops := s.ops ++ [t] } post bad
      (fun op hop => hpre op (by simp [hop])) hnc hsrc
    simp only [RestoreValueOperations] at hrec
    rw [hrec]
    have h2 : s.adds + 1 + ts.length + 1 = s.adds + (ts.length + 1) + 1 := by omega
    simp [h2]

theorem c7_restore_aborts_on_failure_witness :
    (∀ op ∈ ([ValOp.deltaAdd (some 0) 2] : List ValOp), op.sourceParameter.isSome) ∧
    (ValOp.deltaAdd none 1).typeCode ≠ ValOpType.pythonCallBack ∧
    (ValOp.deltaAdd none 1).sourceParameter = none ∧
    RestoreValueOperations (some ([ValOp.deltaAdd (some 0) 2] ++
        ValOp.deltaAdd none 1 :: [ValOp.plusOp (some 1)])) ⟨[], 0, 0, 0⟩ =
      (Outcome.exn, { (⟨[], 0, 0, 0⟩ : PState) with
        ops := (⟨[], 0, 0, 0⟩ : PState).ops ++ [ValOp.deltaAdd (some 0) 2],
        adds := (⟨[], 0, 0, 0⟩ : PState).adds +
          ([ValOp.deltaAdd (some 0) 2] : List ValOp).length + 1 }) :=
  ⟨by decide, by decide, rfl,
    c7_restore_aborts_on_failure [ValOp.deltaAdd (some 0) 2] ⟨[], 0, 0, 0⟩
      [ValOp.plusOp (some 1)] (ValOp.deltaAdd none 1) (by decide) (by decide) rfl⟩

/-- Claim C8 (counterexample): with the fast query unavailable and a
single corrupted operation attached, DialValue raises (the extraction
error propagates uncaught); it does not fall back to the parameter's
computed value as the claim states. -/
theorem c8_counterexample :
    (DialValue ctxSlow true ⟨[ValOp.keyOp none [(0, 0)]], 2, 0, 0⟩).1 =
      Outcome.exn := by
  rfl

/-- Claim C8 (amended): the top-level DialValue propagates the exception
whenever its slow-path extraction raises on a corrupted dependency
operation; no fallback to the parameter's raw computed value exists on the
live path (the only such fallbacks sit in the disabled interpolation
branch). -/
theorem c8_raises_on_corrupt (ctx : Ctx) (s : PState)
    (hU : ctx.hasUnaffected = false)
    (hex : (RemoveValueOperations s).1 = Outcome.exn) :
    (DialValue ctx true s).1 = Outcome.exn ∧
    ∀ v : ℚ, (DialValue ctx true s).1 ≠ Outcome.ok v := by
  have hmain := dialValue_extract_exn ctx s hU hex
  constructor
  · rw [hmain]
  · intro v
    rw [hmain]
    simp

theorem c8_raises_on_corrupt_witness :
    ctxSlow.hasUnaffected = false ∧
    (RemoveValueOperations ⟨[ValOp.keyOp none [(0, 0)]], 2, 0, 0⟩).1 = Outcome.exn ∧
    ((DialValue ctxSlow true ⟨[ValOp.keyOp none [(0, 0)]], 2, 0, 0⟩).1 = Outcome.exn ∧
      ∀ v : ℚ, (DialValue ctxSlow true ⟨[ValOp.keyOp none [(0, 0)]], 2, 0, 0⟩).1 ≠
        Outcome.ok v) :=
  ⟨rfl, rfl, c8_raises_on_corrupt ctxSlow ⟨[ValOp.keyOp none [(0, 0)]], 2, 0, 0⟩ rfl rfl⟩

/-- Claim C9: for a parameter with zero dependency operations, DialValue
returns the parameter's computed value exactly and leaves the host state
untouched — in particular it performs no deletion and no addition of value
operations (the deletes and adds counters of the final state are those of
the initial state, which the state equality subsumes). -/
theorem c9_zero_ops_shortcut (ctx : Ctx) (remove : Bool) (s : PState)
    (h : s.ops = []) :
    (DialValue ctx remove s).1 = Outcome.ok (hostValue ctx s) ∧
    (DialValue ctx remove s).2 = s := by
  by_cases hU : ctx.hasUnaffected = true
  · constructor
    · simp [DialValue, hU, hostValue, hostValueFrame, h]
    · simp [DialValue, hU]
  · rw [Bool.not_eq_true] at hU
    constructor <;> simp [DialValue, hU, h]

theorem c9_zero_ops_shortcut_witness :
    ((⟨[], 5, 0, 0⟩ : PState).ops = []) ∧
    ((DialValue ctxSlow true ⟨[], 5, 0, 0⟩).1 =
        Outcome.ok (hostValue ctxSlow ⟨[], 5, 0, 0⟩) ∧
      (DialValue ctxSlow true ⟨[], 5, 0, 0⟩).2 = ⟨[], 5, 0, 0⟩) :=
  ⟨rfl, c9_zero_ops_shortcut ctxSlow true ⟨[], 5, 0, 0⟩ rfl⟩

/-- Claim C10: with the module-level remove flag False, the unaffected
value query unavailable, and at least one dependency operation attached,
DialValue always raises: the interpolation branch is a dead string
literal, so the function falls through to
`return ApplyParmLimits( theParm, theDialValue )` with the local
`theDialValue` never assigned, raising UnboundLocalError (modelled as the
exception outcome, with the state untouched). -/
theorem c10_remove_false_raises (ctx : Ctx) (s : PState)
    (hU : ctx.hasUnaffected = false) (h : s.ops ≠ []) :
    DialValue ctx false s = (Outcome.exn, s) := by
  have hlen : s.ops.length > 0 := List.length_pos.mpr h
  simp [DialValue, hU, hlen]

theorem c10_remove_false_raises_witness :
    ctxSlow.hasUnaffected = false ∧
    (⟨[ValOp.deltaAdd (some 0) 1], 0, 0, 0⟩ : PState).ops ≠ [] ∧
    DialValue ctxSlow false ⟨[ValOp.deltaAdd (some 0) 1], 0, 0, 0⟩ =
      (Outcome.exn, ⟨[ValOp.deltaAdd (some 0) 1], 0, 0, 0⟩) :=
  ⟨rfl, by decide,
    c10_remove_false_raises ctxSlow ⟨[ValOp.deltaAdd (some 0) 1], 0, 0, 0⟩ rfl (by decide)⟩

end PoserDialValue
